import Mathlib

/-!
Shallow embedding of `httpie/downloads.py` (download-resume protocol logic
and progress reporting) and verification of its specification.

Python conventions embedded explicitly:
- `None`-able values are `Option`s; Python truthiness of a value is a
  separate `Bool`-valued function where the source relies on it.
- exceptions are `Except` errors (`PyExc` enumerates the kinds raised);
  `assert` failures are `PyExc.assertionError`.
- machine integers are unbounded in Python, so `Nat`/`Int` are exact;
  `time.time()` floats are modelled as exact rationals `ℚ`.
-/

namespace Httpie

/-- Kinds of `ContentRangeError` raised by `parse_content_range`, in source
order: bad grammar, RFC-invalid range, range not matching the request. -/
inductive CRErr where
  | invalidFormat
  | invalidRange
  | unexpectedRange
deriving DecidableEq

/-- Exception kinds the embedded code can raise. -/
inductive PyExc where
  | assertionError
  | zeroDivisionError
  | typeErr
  | attributeError
  | contentRange (e : CRErr)
deriving DecidableEq

deriving instance DecidableEq for Except

/-! ## Regex primitives

`downloads.py` uses three `re` patterns over ASCII `str`s; they are embedded
as explicit `List Char` scanners. Python's `$` also matches just before one
trailing newline, which the Content-Range matcher reproduces. -/

/-- Python `\s` for ASCII strings: the six whitespace characters. -/
def pyIsSpace (c : Char) : Bool :=
  c = ' ' || c = '\t' || c = '\n' || c = '\x0b' || c = '\x0c' || c = '\r'

/-- Python `$`: end of string, or just before a single trailing newline. -/
def pyEnd (l : List Char) : Bool :=
  l = [] || l = ['\n']

/-- A maximal nonempty run of ASCII digits (`\d+`): its value and the rest. -/
def matchDigits (l : List Char) : Option (Nat × List Char) :=
  match l with
  | [] => none
  | c :: _ =>
    if c.isDigit then
      let ds := l.takeWhile Char.isDigit
      some (ds.foldl (fun a d => a * 10 + (d.toNat - 48)) 0, l.dropWhile Char.isDigit)
    else none

/-- Matcher for `^bytes (\d+)-(\d+)/(\*|(\d+))$` (the source's Content-Range
pattern): yields `(first_byte_pos, last_byte_pos, instance_length)`. -/
def matchContentRange (s : List Char) : Option (Nat × Nat × Option Nat) :=
  match s.splitAt 6 with
  | (pre, rest) =>
    if pre ≠ "bytes ".data then none
    else match matchDigits rest with
    | none => none
    | some (first, r1) =>
      match r1 with
      | '-' :: r2 =>
        match matchDigits r2 with
        | none => none
        | some (last, r3) =>
          match r3 with
          | '/' :: '*' :: r4 => if pyEnd r4 then some (first, last, none) else none
          | '/' :: r4 =>
            match matchDigits r4 with
            | none => none
            | some (ilen, r5) => if pyEnd r5 then some (first, last, some ilen) else none
          | _ => none
      | _ => none

/-- `parse_content_range(content_range, resumed_from)`: validate a
Content-Range response header against the requested resume offset and
return the total size (`last_byte_pos + 1`), or raise `ContentRangeError`.
Check order follows the source: grammar, RFC validity
(`first_byte_pos >= last_byte_pos or instance_length <= last_byte_pos`
is rejected), then agreement with the request
(`first_byte_pos != resumed_from or last_byte_pos + 1 != instance_length`). -/
def parse_content_range (content_range : String) (resumed_from : Nat) :
    Except CRErr Nat :=
  match matchContentRange content_range.data with
  | none => .error .invalidFormat
  | some (first_byte_pos, last_byte_pos, instance_length) =>
    if first_byte_pos ≥ last_byte_pos ||
        (match instance_length with
         | some n => n ≤ last_byte_pos
         | none => false) then
      .error .invalidRange
    else if first_byte_pos ≠ resumed_from ||
        (match instance_length with
         | some n => last_byte_pos + 1 ≠ n
         | none => false) then
      .error .unexpectedRange
    else
      .ok (last_byte_pos + 1)

/-! ## Filename resolver -/

/-- Leftmost match of `re.search('filename=(\S+)', s)`: the first position
where the literal `filename=` is followed by at least one non-whitespace
character; the group is the maximal `\S+` run after the `=`. -/
def searchFilenameToken : List Char → Option (List Char)
  | [] => none
  | c :: rest =>
    let here := c :: rest
    match here.splitAt 9 with
    | (pre, tail) =>
      if pre = "filename=".data then
        match tail with
        | t :: _ =>
          if pyIsSpace t then searchFilenameToken rest
          else some (tail.takeWhile (fun x => !pyIsSpace x))
        | [] => searchFilenameToken rest
      else
        searchFilenameToken rest

/-- Character class `[a-zA-Z0-9._-]` of the validation regex. -/
def filenameChar (c : Char) : Bool :=
  (decide ('a' ≤ c) && decide (c ≤ 'z')) ||
  (decide ('A' ≤ c) && decide (c ≤ 'Z')) ||
  (decide ('0' ≤ c) && decide (c ≤ '9')) ||
  c == '.' || c == '_' || c == '-' 

/-- `filename_from_content_disposition(content_disposition)`: take the
`filename=(\S+)` token, `lstrip('.')` it, and return it only when it
matches `^[a-zA-Z0-9._-]+$`; otherwise `None`. -/
def filename_from_content_disposition (content_disposition : String) :
    Option String :=
  match searchFilenameToken content_disposition.data with
  | none => none
  | some tok =>
    let fn := tok.dropWhile (fun c => c == '.')
    if fn ≠ [] ∧ fn.all filenameChar = true then some (String.mk fn) else none

/-- Python truthiness of an optional string (`None` and `''` are falsy). -/
def pyTruthyStr (o : Option String) : Bool :=
  match o with
  | none => false
  | some s => s ≠ ""

/-- Path component of `urlsplit(url)`. `urlsplit` is the standard library's
(an external collaborator): modelled for the URLs the source receives —
everything after the authority (the part following `scheme://`) up to the
first `?` or `#`. A URL without `://` is taken as having no authority. -/
def urlsplitPath (url : String) : String :=
  let l := url.data
  let afterScheme :=
    match l.splitAt ((l.takeWhile (fun c => c != ':')).length) with
    | (_, ':' :: '/' :: '/' :: rest) => rest.dropWhile (fun c => c != '/')
    | _ => l
  String.mk (afterScheme.takeWhile (fun c => c != '?' && c != '#'))

/-- `os.path.basename`: everything after the last `/`. -/
def basename (s : String) : String :=
  String.mk (((s.data.reverse).takeWhile (fun c => c != '/')).reverse)

/-- `filename_from_url(url, content_type)`. `mimetypes.guess_extension` is
the standard library's global table (an external collaborator), injected as
`guessExt`. -/
def filename_from_url (url : String) (content_type : Option String)
    (guessExt : String → Option String) : String :=
  let fn0 := String.mk ((urlsplitPath url).data.reverse.dropWhile
    (fun c => c == '/')).reverse
  let fn := if fn0 ≠ "" then basename fn0 else "index"
  if (!(fn.data.contains '.')) && pyTruthyStr content_type then
    let ct := String.mk ((content_type.getD "").data.takeWhile (fun c => c ≠ ';'))
    let ext := if ct = "text/plain" then some ".txt" else guessExt ct
    match ext with
    | some e => fn ++ e
    | none => fn
  else fn

/-- The name probed at `attempt` number `k` by `get_unique_filename`:
the candidate itself for `k = 0`, `candidate-k` afterwards. -/
def probeName (fn : String) (attempt : Nat) : String :=
  fn ++ (if attempt > 0 then "-" ++ toString attempt else "")

/-- The `while True` loop of `get_unique_filename`, with explicit fuel
(`none` means the loop is still running after `fuel` probes). -/
def get_unique_filename_loop (ex : String → Bool) (fn : String) :
    Nat → Nat → Option String
  | 0, _ => none
  | fuel + 1, attempt =>
    if ex (probeName fn attempt) then
      get_unique_filename_loop ex fn fuel (attempt + 1)
    else
      some (probeName fn attempt)

/-- `get_unique_filename(fn, exists)`: first probe of `fn`, `fn-1`, `fn-2`,
… on which `exists` is false. -/
def get_unique_filename (fn : String) (ex : String → Bool) (fuel : Nat) :
    Option String :=
  get_unique_filename_loop ex fn fuel 0

/-! ## Progress -/

/-- `humanize_bytes` lives in `httpie/utils.py`, which is not under `src/`.
Modelled from the spec: the spec fixes no exact rendering beyond "human
units" and a `"?"` placeholder for an unknown size, so a known quantity is
modelled as its decimal rendering. -/
def humanize_bytes (n : ℚ) : String :=
  toString n

/-- The `Progress` counters. `time_started` and `time_finished` are the
`time.time()` values captured by `started` and `finished`. -/
structure Progress where
  downloaded : Nat
  total_size : Option Int
  resumed_from : Nat
  total_size_humanized : String
  time_started : Option ℚ
  time_finished : Option ℚ
deriving DecidableEq

/-- `Progress.__init__`. -/
def Progress.init : Progress :=
  { downloaded := 0, total_size := none, resumed_from := 0,
    total_size_humanized := "?", time_started := none, time_finished := none }

/-- `Progress.started(resumed_from, total_size)`, given the current
`time.time()` value `now`; asserts `time_started is None`. -/
def Progress.started (p : Progress) (resumed_from : Nat)
    (total_size : Option Int) (now : ℚ) : Except PyExc Progress :=
  match p.time_started with
  | some _ => .error .assertionError
  | none =>
    match total_size with
    | some t =>
      .ok { p with total_size := some t,
                   total_size_humanized := humanize_bytes (t : ℚ),
                   downloaded := resumed_from, resumed_from := resumed_from,
                   time_started := some now }
    | none =>
      .ok { p with downloaded := resumed_from, resumed_from := resumed_from,
                   time_started := some now }

/-- `Progress.chunk_downloaded(size)`; asserts `time_finished is None`. -/
def Progress.chunk_downloaded (p : Progress) (size : Nat) :
    Except PyExc Progress :=
  match p.time_finished with
  | some _ => .error .assertionError
  | none => .ok { p with downloaded := p.downloaded + size }

/-- `Progress.has_finished`. -/
def Progress.has_finished (p : Progress) : Bool :=
  p.time_finished.isSome

/-- `Progress.finished()`, given the current `time.time()` value `now`;
asserts `time_started is not None` and then `time_finished is None`. -/
def Progress.finished (p : Progress) (now : ℚ) : Except PyExc Progress :=
  match p.time_started with
  | none => .error .assertionError
  | some _ =>
    match p.time_finished with
    | some _ => .error .assertionError
    | none => .ok { p with time_finished := some now }

/-- The copy loop's per-chunk callback (`Download._on_progress` is invoked
once per chunk with the chunk's byte length), applied for a whole list of
chunk sizes in order; stops at the first raised exception. -/
def applyChunks : Progress → List Nat → Except PyExc Progress
  | p, [] => .ok p
  | p, s :: rest =>
    match p.chunk_downloaded s with
    | .error e => .error e
    | .ok p2 => applyChunks p2 rest

/-! ## Download orchestrator -/

/-- Python truthiness of the optional `time.time()` float stored in
`Progress.time_started` (`None` and `0.0` are falsy). -/
def pyTruthyOptTime (o : Option ℚ) : Bool :=
  match o with
  | none => false
  | some t => decide (t ≠ 0)

/-- Python truthiness of `Progress.total_size` (`None` and `0` are falsy). -/
def pyTruthyOptInt (o : Option Int) : Bool :=
  match o with
  | none => false
  | some t => decide (t ≠ 0)

/-- `int(s)` on a string: optional surrounding ASCII whitespace, an optional
sign, then one or more digits; `none` models the `ValueError`. -/
def pyIntOfString (s : String) : Option Int :=
  let l := s.data.dropWhile pyIsSpace
  let core := l.takeWhile (fun c => !pyIsSpace c)
  if l.dropWhile (fun c => !pyIsSpace c) |>.all pyIsSpace then
    match core with
    | '-' :: ds =>
      if ds ≠ [] ∧ ds.all Char.isDigit = true then
        some (-(ds.foldl (fun a d => a * 10 + (d.toNat - 48 : Int)) 0))
      else none
    | '+' :: ds =>
      if ds ≠ [] ∧ ds.all Char.isDigit = true then
        some (ds.foldl (fun a d => a * 10 + (d.toNat - 48 : Int)) 0)
      else none
    | ds =>
      if ds ≠ [] ∧ ds.all Char.isDigit = true then
        some (ds.foldl (fun a d => a * 10 + (d.toNat - 48 : Int)) 0)
      else none
  else none

/-- `httplib`-level status code for partial content. -/
def PARTIAL_CONTENT : Int := 206

/-- The open output file: its filesystem name, its current on-disk size
(what `os.path.getsize(name)` reports), and whether it has been closed. -/
structure FileState where
  name : String
  size : Nat
  closed : Bool
deriving DecidableEq

/-- The response object's parts the source reads: status code, the header
keys it looks up, and the final URL. -/
structure Response where
  status_code : Int
  content_length : Option String
  content_range : Option String
  content_disposition : Option String
  content_type : Option String
  url : String
deriving DecidableEq

/-- The two outgoing request headers `pre_request` assigns. A field value
`some v` means the key is present in the dict with value `v`; the inner
`Option` is the Python value (`some none` is the key set to `None`). -/
structure RequestHeaders where
  accept_encoding : Option (Option String)
  range : Option String
deriving DecidableEq

/-- `Download.__init__` state: the output file handle (if supplied), the
`resume` flag, the resume offset established so far, and the owned
`Progress`. The owned `ProgressReporter` state is kept separately (see
`ReporterState`). -/
structure Download where
  output_file : Option FileState
  resume : Bool
  resumed_from : Nat
  progress : Progress
deriving DecidableEq

/-- A fresh `Download(output_file, resume)`. -/
def Download.init (output_file : Option FileState) (resume : Bool) :
    Download :=
  { output_file := output_file, resume := resume, resumed_from := 0,
    progress := Progress.init }

/-- `Download.pre_request(request_headers)`: always sets
`Accept-Encoding: None`; when `resume` was requested it reads
`os.path.getsize(self._output_file.name)` — an `AttributeError` when no
output file was supplied — and, if that size is nonzero, sets
`Range: bytes=<size>-` and records the size as the resume offset. -/
def Download.pre_request (d : Download) (request_headers : RequestHeaders) :
    Except PyExc (Download × RequestHeaders) :=
  let h1 : RequestHeaders := { request_headers with accept_encoding := some none }
  if d.resume then
    match d.output_file with
    | none => .error .attributeError
    | some f =>
      let bytes_have := f.size
      if bytes_have ≠ 0 then
        .ok ({ d with resumed_from := bytes_have },
             { h1 with range := some ("bytes=" ++ toString bytes_have ++ "-") })
      else
        .ok (d, h1)
  else
    .ok (d, h1)

/-- The `RawStream` constructed by `Download.start` (an external
collaborator; only the arguments the source passes are recorded — the
per-chunk callback it is wired to is `Progress.chunk_downloaded`, driven
in this model by `applyChunks`). -/
structure StreamSpec where
  with_headers : Bool
  with_body : Bool
  chunk_size : Nat
deriving DecidableEq

/-- What a successful `Download.start` produces: the updated download
state, the wrapped stream, and the announcement written to the progress
sink (after which the first report cycle is triggered). -/
structure StartResult where
  download : Download
  stream : StreamSpec
  saving_message : String
deriving DecidableEq

/-- `Download.start(response)`, given the `time.time()` value `now` seen by
`Progress.started`. External collaborators are injected: `fsExists` is
`os.path.exists` for `get_unique_filename`, `guessExt` is
`mimetypes.guess_extension`, and `fuel` bounds the unique-name probe loop
(outer `none` = the source would still be looping). First statement is
`assert not self._progress.time_started`. -/
def Download.start (d : Download) (response : Response) (now : ℚ)
    (fsExists : String → Bool) (guessExt : String → Option String)
    (fuel : Nat) : Option (Except PyExc StartResult) :=
  if pyTruthyOptTime d.progress.time_started then
    some (.error .assertionError)
  else
    let total_size0 : Option Int :=
      match response.content_length with
      | none => none
      | some s => pyIntOfString s
    let afterFile : Option (Except PyExc (Download × Option Int)) :=
      match d.output_file with
      | some f =>
        if d.resume ∧ response.status_code = PARTIAL_CONTENT then
          match response.content_range with
          | some cr =>
            match parse_content_range cr d.resumed_from with
            | .error e => some (.error (.contentRange e))
            | .ok v => some (.ok (d, some (v : Int)))
          | none => some (.ok (d, total_size0))
        else
          -- seek(0) + truncate(); IOError (unseekable output) is swallowed
          let d2 : Download :=
            { d with resumed_from := 0, output_file := some { f with size := 0 } }
          some (.ok (d2, total_size0))
      | none =>
        let fn :=
          match response.content_disposition with
          | some cd =>
            match filename_from_content_disposition cd with
            | some x => x
            | none => filename_from_url response.url response.content_type guessExt
          | none => filename_from_url response.url response.content_type guessExt
        match get_unique_filename fn fsExists fuel with
        | none => none
        | some name =>
          -- open(..., mode='a+b') on a name that does not exist yet
          let opened : FileState := { name := name, size := 0, closed := false }
          some (.ok ({ d with output_file := some opened }, total_size0))
    match afterFile with
    | none => none
    | some (.error e) => some (.error e)
    | some (.ok (d1, total_size)) =>
      match d1.progress.started d1.resumed_from total_size now with
      | .error e => some (.error e)
      | .ok pr =>
        let name := (d1.output_file.map FileState.name).getD ""
        some (.ok
          { download := { d1 with progress := pr },
            stream := { with_headers := false, with_body := true,
                        chunk_size := 1024 * 8 },
            saving_message := "Saving to \"" ++ name ++ "\"\n" })

/-- `Download.finish()`: asserts the output file is not closed, closes it,
and marks the progress finished (`now` is `time.time()` at that moment). -/
def Download.finish (d : Download) (now : ℚ) : Except PyExc Download :=
  match d.output_file with
  | none => .error .attributeError
  | some f =>
    if f.closed then .error .assertionError
    else
      match d.progress.finished now with
      | .error e => .error e
      | .ok pr =>
        .ok { d with output_file := some { f with closed := true },
                     progress := pr }

/-- `Download.interrupted`: the truthiness of
`output_file.closed and progress.total_size and
progress.total_size != progress.downloaded` (an `AttributeError` when no
output file was ever supplied or created). -/
def Download.interrupted (d : Download) : Except PyExc Bool :=
  match d.output_file with
  | none => .error .attributeError
  | some f =>
    .ok (f.closed && pyTruthyOptInt d.progress.total_size &&
      (match d.progress.total_size with
       | some t => decide (t ≠ (d.progress.downloaded : Int))
       | none => false))

/-! ## ProgressReporter -/

/-- Python `int()` on a float: truncation toward zero. -/
def pyIntTrunc (q : ℚ) : Int :=
  if q < 0 then ⌈q⌉ else ⌊q⌋

/-- `str(timedelta(seconds=n))`. `datetime.timedelta` is the standard
library's (an external collaborator); its exact duration rendering is not
relied on by any claim, so the seconds value is rendered decimally. -/
def timedelta_repr (n : Int) : String :=
  toString n

/-- Which line template was selected: `PROGRESS` (known total size, shows
percentage and total) or `PROGRESS_NO_CONTENT_LENGTH` (omits both). -/
inductive LineKind where
  | progressLine
  | progressNoContentLength
deriving DecidableEq

/-- One computed status line: the template and the values handed to its
`format` call (`downloaded` and `speed` are humanized at that call;
`percentage` is `None` and `total` unused under
`PROGRESS_NO_CONTENT_LENGTH`). -/
structure StatusLine where
  kind : LineKind
  percentage : Option ℚ
  downloaded : Nat
  total : String
  speed : ℚ
  eta : String
deriving DecidableEq

/-- `ProgressReporter` mutable state. `status_line = none` is the initial
empty string. `tick` and `update_interval` are the constructor defaults
unless a caller overrides them. -/
structure ReporterState where
  prev_bytes : Nat
  prev_time : ℚ
  spinner_pos : Nat
  status_line : Option StatusLine
  tick : ℚ
  update_interval : ℚ
deriving DecidableEq

/-- `ProgressReporter.__init__` (given the `time.time()` value at
construction). -/
def ReporterState.init (now : ℚ) : ReporterState :=
  { prev_bytes := 0, prev_time := now, spinner_pos := 0,
    status_line := none, tick := 1 / 10, update_interval := 1 }

/-- The `SPINNER` glyph (pipe, slash, dash, backslash) at a position. -/
def spinnerGlyph (pos : Nat) : Char :=
  "|/-\\".data.getD pos '|'

/-- The `try` block of `report_speed`: compute `speed` and the `eta`
string. A `ZeroDivisionError` from either division is caught by the source
(`speed = 0; eta = '?'`); evaluating `self.progress.total_size - downloaded`
with `total_size = None` raises `TypeError`, which the source does not
catch. Evaluation order matches Python: the speed division first, then the
subtraction, then the eta division. -/
def computeSpeedEta (total_size : Option Int) (downloaded prev_bytes : Nat)
    (now prev_time : ℚ) : Except PyExc (ℚ × String) :=
  if now - prev_time = 0 then
    .ok (0, "?")
  else
    let speed : ℚ := ((downloaded : ℚ) - (prev_bytes : ℚ)) / (now - prev_time)
    match total_size with
    | none => .error .typeErr
    | some t =>
      if speed = 0 then
        .ok (0, "?")
      else
        .ok (speed, timedelta_repr (pyIntTrunc (((t : ℚ) - (downloaded : ℚ)) / speed)))

/-- The write `report_speed` performs at the end of each wake:
`CLEAR_LINE + SPINNER[spinner_pos] + ' ' + status_line`, then a flush. -/
structure RWrite where
  spinner : Char
  line : Option StatusLine
deriving DecidableEq

/-- The status line assembled on a recompute wake: `PROGRESS` with
`percentage = downloaded / total_size * 100` when `total_size` is truthy,
`PROGRESS_NO_CONTENT_LENGTH` with `percentage = None` otherwise (the
percentage/template choice happens before the `try` block in the source;
it cannot raise, so folding it into the line record is behaviour-equal). -/
def statusLineOf (progress : Progress) (speed : ℚ) (eta : String) :
    StatusLine :=
  { kind := if pyTruthyOptInt progress.total_size then .progressLine
            else .progressNoContentLength,
    percentage :=
      if pyTruthyOptInt progress.total_size then
        some ((progress.downloaded : ℚ) /
          ((progress.total_size.getD 0 : Int) : ℚ) * 100)
      else none,
    downloaded := progress.downloaded, total := progress.total_size_humanized,
    speed := speed, eta := eta }

/-- The sampling half of `report_speed`: when at least `update_interval`
has elapsed since the previous sample, recompute the status line (raising
whatever the `try` block leaves uncaught) and advance the sample point;
otherwise leave the state untouched. -/
def sampleStep (progress : Progress) (st : ReporterState) (now : ℚ) :
    Except PyExc ReporterState :=
  if now - st.prev_time ≥ st.update_interval then
    match computeSpeedEta progress.total_size progress.downloaded
        st.prev_bytes now st.prev_time with
    | .error e => .error e
    | .ok (speed, eta) =>
      .ok { st with status_line := some (statusLineOf progress speed eta),
                    prev_time := now, prev_bytes := progress.downloaded }
  else
    .ok st

/-- `ProgressReporter.report_speed()` at wake time `now`: sample (see
`sampleStep`), then write the clear-line/spinner/status-line sequence,
flush, and advance the spinner. -/
def report_speed (progress : Progress) (st : ReporterState) (now : ℚ) :
    Except PyExc (ReporterState × RWrite) :=
  match sampleStep progress st now with
  | .error e => .error e
  | .ok st1 =>
    .ok ({ st1 with spinner_pos :=
             if st1.spinner_pos + 1 ≠ 4 then st1.spinner_pos + 1 else 0 },
         { spinner := spinnerGlyph st1.spinner_pos, line := st1.status_line })

/-- The summary written once by `ProgressReporter.sum_up`: the values
handed to `SUMMARY.format` (each byte quantity is humanized there), written
after a `CLEAR_LINE`. -/
structure SummaryOut where
  downloaded : ℚ
  total : Option Int
  time : ℚ
  speed : ℚ
deriving DecidableEq

/-- `ProgressReporter.sum_up()`: `downloaded - resumed_from` bytes this
session, `time_finished - time_started` elapsed, their quotient as average
speed. Arithmetic on a `None` timestamp raises `TypeError`; a zero elapsed
time raises `ZeroDivisionError` at the speed division. -/
def sum_up (progress : Progress) : Except PyExc SummaryOut :=
  let actually_downloaded : ℚ :=
    (progress.downloaded : ℚ) - (progress.resumed_from : ℚ)
  match progress.time_finished, progress.time_started with
  | some tf, some ts =>
    let time_taken := tf - ts
    if time_taken = 0 then
      .error .zeroDivisionError
    else
      .ok { downloaded := actually_downloaded, total := progress.total_size,
            time := time_taken, speed := actually_downloaded / time_taken }
  | _, _ => .error .typeErr

/-! ## Theorems -/

/-- C1: the code rejects a one-byte range. `"bytes 100-100/101"` satisfies
the grammar with `first == resumed_from == 100`, `last == first`, and
`instance_length == last + 1`, so per the claim (and per the RFC text
quoted in the source's own comment, which invalidates only `last < first`)
it should return `101`; the source's `first_byte_pos >= last_byte_pos`
test raises `ContentRangeError` instead. -/
theorem parse_content_range_rejects_single_byte_range :
    parse_content_range "bytes 100-100/101" 100 = .error .invalidRange ∧
    parse_content_range "bytes 100-100/101" 100 ≠ .ok 101 := by
  decide

/-- C8 (counterexample): for `'attachment; filename=".secret"'` the claim
says `"secret"` is returned; the `\S+` token is `".secret"` with the
quotes, `lstrip('.')` removes nothing (the first character is `"`), and
validation fails, so the function returns nothing. -/
theorem filename_from_content_disposition_dotsecret :
    filename_from_content_disposition "attachment; filename=\".secret\"" = none ∧
    filename_from_content_disposition "attachment; filename=\".secret\""
      ≠ some "secret" := by
  decide

/-- The head of `dropWhile p l`, when present, fails `p` (a fact about the
embedding's `lstrip` model used by the C8 soundness proof). -/
theorem head_dropWhile_false {α : Type} (p : α → Bool) :
    ∀ (l : List α) (c : α), (l.dropWhile p).head? = some c → p c = false := by
  intro l
  induction l with
  | nil => intro c h; simp [List.dropWhile] at h
  | cons a t ih =>
    intro c h
    rw [List.dropWhile_cons] at h
    by_cases hpa : p a = true
    · rw [if_pos hpa] at h; exact ih c h
    · rw [if_neg hpa] at h
      have : a = c := by simpa using h
      rw [← this]
      exact Bool.eq_false_iff.mpr hpa

/-- C8 (amended): `filename_from_content_disposition` returns
`"report.tar.gz"` for `'attachment; filename=report.tar.gz'`; any name it
returns is a nonempty match of `^[a-zA-Z0-9._-]+$` that does not start
with a dot — in particular it never contains `/` or a space; and the
quoted `".secret"` example yields nothing. -/
theorem filename_from_content_disposition_spec :
    filename_from_content_disposition "attachment; filename=report.tar.gz"
      = some "report.tar.gz" ∧
    filename_from_content_disposition "attachment; filename=\".secret\"" = none ∧
    (∀ cd fn, filename_from_content_disposition cd = some fn →
      fn.data ≠ [] ∧ fn.data.all filenameChar = true ∧
      fn.data.head? ≠ some '.' ∧ '/' ∉ fn.data ∧ ' ' ∉ fn.data) := by
  refine ⟨by decide, by decide, ?_⟩
  intro cd fn h
  unfold filename_from_content_disposition at h
  cases hs : searchFilenameToken cd.data with
  | none => rw [hs] at h; exact absurd h (by simp)
  | some tok =>
    rw [hs] at h
    simp only at h
    by_cases hcond : tok.dropWhile (fun c => c == '.') ≠ [] ∧
        (tok.dropWhile (fun c => c == '.')).all filenameChar = true
    · rw [if_pos hcond] at h
      have hfn : fn.data = tok.dropWhile (fun c => c == '.') := by
        have := (Option.some.injEq _ _).mp h
        exact congrArg String.data this.symm
      obtain ⟨hne, hall⟩ := hcond
      refine ⟨by rw [hfn]; exact hne, by rw [hfn]; exact hall, ?_, ?_, ?_⟩
      · rw [hfn]
        intro hceq
        have hp := head_dropWhile_false (fun c => c == '.') tok '.' hceq
        exact absurd hp (by decide)
      · rw [hfn]
        intro hmem
        have := List.all_eq_true.mp hall _ hmem
        exact absurd this (by decide)
      · rw [hfn]
        intro hmem
        have := List.all_eq_true.mp hall _ hmem
        exact absurd this (by decide)
    · rw [if_neg hcond] at h
      exact absurd h (by simp)

/-- C8 (witness): the soundness clause applied at the concrete header
`'attachment; filename=report.tar.gz'`. -/
theorem filename_from_content_disposition_spec_witness :
    "report.tar.gz".data ≠ [] ∧
    "report.tar.gz".data.all filenameChar = true ∧
    "report.tar.gz".data.head? ≠ some '.' ∧
    '/' ∉ "report.tar.gz".data ∧ ' ' ∉ "report.tar.gz".data :=
  filename_from_content_disposition_spec.2.2
    "attachment; filename=report.tar.gz" "report.tar.gz" (by decide)

/-- If every probe before `k` (counted from attempt `a`) reports taken and
probe `a + k` does not, the `get_unique_filename` loop started at attempt
`a` with at least `k + 1` fuel stops at `probeName fn (a + k)`. -/
theorem get_unique_filename_loop_finds (ex : String → Bool) (fn : String) :
    ∀ (k a fuel : Nat), (∀ j, j < k → ex (probeName fn (a + j)) = true) →
      ex (probeName fn (a + k)) = false → k + 1 ≤ fuel →
      get_unique_filename_loop ex fn fuel a = some (probeName fn (a + k)) := by
  intro k
  induction k with
  | zero =>
    intro a fuel _ hfree hfuel
    obtain ⟨m, rfl⟩ : ∃ m, fuel = m + 1 :=
      ⟨fuel - 1, by omega⟩
    rw [get_unique_filename_loop]
    rw [Nat.add_zero] at hfree
    simp [hfree]
  | succ k ih =>
    intro a fuel htaken hfree hfuel
    obtain ⟨m, rfl⟩ : ∃ m, fuel = m + 1 :=
      ⟨fuel - 1, by omega⟩
    rw [get_unique_filename_loop]
    have h0 : ex (probeName fn a) = true := by
      have := htaken 0 (Nat.succ_pos k)
      rwa [Nat.add_zero] at this
    rw [h0]
    simp only
    have hres := ih (a + 1) m
      (fun j hj => by
        have := htaken (j + 1) (by omega)
        rwa [show a + (j + 1) = a + 1 + j by omega] at this)
      (by rwa [show a + 1 + k = a + (k + 1) by omega])
      (by omega)
    rw [hres, show a + 1 + k = a + (k + 1) by omega]
    simp

/-- C9: `get_unique_filename(candidate, exists)` returns the candidate
itself when it does not exist; in general it returns `candidate-k` for the
first attempt `k` (probing `candidate`, `candidate-1`, `candidate-2`, …)
whose probe does not exist; with a predicate true exactly on
`{"a", "a-1"}` it returns `"a-2"`. -/
theorem get_unique_filename_spec :
    (∀ (fn : String) (ex : String → Bool) (fuel : Nat), 1 ≤ fuel →
      ex fn = false → get_unique_filename fn ex fuel = some fn) ∧
    (∀ (fn : String) (ex : String → Bool) (k fuel : Nat),
      (∀ j, j < k → ex (probeName fn j) = true) →
      ex (probeName fn k) = false → k + 1 ≤ fuel →
      get_unique_filename fn ex fuel = some (probeName fn k)) ∧
    get_unique_filename "a" (fun s => s == "a" || s == "a-1") 3 = some "a-2" := by
  have hgen : ∀ (fn : String) (ex : String → Bool) (k fuel : Nat),
      (∀ j, j < k → ex (probeName fn j) = true) →
      ex (probeName fn k) = false → k + 1 ≤ fuel →
      get_unique_filename fn ex fuel = some (probeName fn k) := by
    intro fn ex k fuel htaken hfree hfuel
    unfold get_unique_filename
    have := get_unique_filename_loop_finds ex fn k 0 fuel
      (fun j hj => by simpa using htaken j hj)
      (by simpa using hfree) hfuel
    simpa using this
  refine ⟨?_, hgen, by decide⟩
  intro fn ex fuel hfuel hfree
  have := hgen fn ex 0 fuel (by omega) (by simpa [probeName] using hfree) hfuel
  simpa [probeName] using this

/-- C9 (witness): the general clause applied with the `{"a", "a-1"}`
predicate, two taken probes, and fuel `3`. -/
theorem get_unique_filename_spec_witness :
    get_unique_filename "a" (fun s => s == "a" || s == "a-1") 3
      = some (probeName "a" 2) :=
  get_unique_filename_spec.2.1 "a" (fun s => s == "a" || s == "a-1") 2 3
    (by decide) (by decide) (by decide)

/-- The claim's reading of `Download.interrupted`: output file closed, a
total size known (any value, zero included), and the byte counter short of
or past it. Stated from the spec's words, to be compared with the source's
truthiness-based `Download.interrupted`. -/
def interrupted_per_claim (d : Download) : Prop :=
  (∃ f, d.output_file = some f ∧ f.closed = true) ∧
  (∃ t, d.progress.total_size = some t ∧ t ≠ (d.progress.downloaded : Int))

/-- A closed download that declared `total_size = 0` but holds 5 bytes
(e.g. a resumed transfer whose fresh `Content-Length` was `0`). -/
def downloadZeroTotal : Download :=
  { output_file := some { name := "f", size := 5, closed := true },
    resume := true, resumed_from := 5,
    progress := { Progress.init with downloaded := 5, total_size := some 0 } }

/-- C2 (counterexample): with a known total size of `0` and
`downloaded = 5 ≠ 0`, the claim says `interrupted` is true, but the source
evaluates `closed and total_size and ...` and Python's `0` is falsy, so
the property is false. -/
theorem interrupted_zero_total_counterexample :
    Download.interrupted downloadZeroTotal = .ok false ∧
    interrupted_per_claim downloadZeroTotal := by
  constructor
  · decide
  · exact ⟨⟨_, rfl, rfl⟩, ⟨0, rfl, by decide⟩⟩

/-- C2 (amended): `interrupted` is true iff the output file has been
closed AND a total size was known AND NONZERO and `downloaded` differs
from it; in particular it is false whenever `total_size` is unknown or
zero (both are falsy to Python's `and`). -/
theorem interrupted_iff (d : Download) :
    Download.interrupted d = .ok true ↔
    ∃ f, d.output_file = some f ∧ f.closed = true ∧
      ∃ t, d.progress.total_size = some t ∧ t ≠ 0 ∧
        t ≠ (d.progress.downloaded : Int) := by
  cases ho : d.output_file with
  | none =>
    simp [Download.interrupted, ho]
  | some f =>
    cases ht : d.progress.total_size with
    | none =>
      simp [Download.interrupted, ho, ht, pyTruthyOptInt]
    | some t =>
      simp only [Download.interrupted, ho, ht, pyTruthyOptInt]
      constructor
      · intro h
        have hb := (Except.ok.injEq _ _).mp h
        simp only [Bool.and_eq_true, decide_eq_true_eq] at hb
        exact ⟨f, rfl, hb.1.1, t, rfl, hb.1.2, hb.2⟩
      · rintro ⟨f2, hf2, hclosed, t2, ht2, hnz, hne⟩
        have hff := Option.some.inj hf2
        have htt := Option.some.inj ht2
        subst hff htt
        simp [hclosed, hnz, hne]

/-- C10: with `resume=True`, `pre_request` dereferences
`self._output_file.name`, so it raises when no output file object was
supplied; when one was supplied it always returns, and it sets
`Range: bytes=<size>-` and records the resume offset exactly when the
file's existing size is nonzero (`Accept-Encoding` is cleared in every
case). -/
theorem pre_request_spec :
    (∀ (d : Download) (h : RequestHeaders), d.resume = true →
      d.output_file = none →
      Download.pre_request d h = .error .attributeError) ∧
    (∀ (d : Download) (h : RequestHeaders) (f : FileState), d.resume = true →
      d.output_file = some f → f.size ≠ 0 →
      Download.pre_request d h = .ok ({ d with resumed_from := f.size },
        { accept_encoding := some none,
          range := some ("bytes=" ++ toString f.size ++ "-") })) ∧
    (∀ (d : Download) (h : RequestHeaders) (f : FileState), d.resume = true →
      d.output_file = some f → f.size = 0 →
      Download.pre_request d h = .ok (d, { h with accept_encoding := some none })) := by
  refine ⟨?_, ?_, ?_⟩
  · intro d h hres hout
    simp [Download.pre_request, hres, hout]
  · intro d h f hres hout hsz
    simp [Download.pre_request, hres, hout, hsz]
  · intro d h f hres hout hsz
    simp [Download.pre_request, hres, hout, hsz]

/-- C10 (witness): the three clauses at concrete downloads — no output
file, a 42-byte file, and an empty file. -/
theorem pre_request_spec_witness :
    Download.pre_request (Download.init none true)
      { accept_encoding := none, range := none } = .error .attributeError ∧
    Download.pre_request
      (Download.init (some { name := "f", size := 42, closed := false }) true)
      { accept_encoding := none, range := none }
      = .ok ({ Download.init (some { name := "f", size := 42, closed := false })
                 true with resumed_from := 42 },
             { accept_encoding := some none, range := some "bytes=42-" }) ∧
    Download.pre_request
      (Download.init (some { name := "g", size := 0, closed := false }) true)
      { accept_encoding := none, range := none }
      = .ok (Download.init (some { name := "g", size := 0, closed := false }) true,
             { accept_encoding := some none, range := none }) := by
  refine ⟨?_, ?_, ?_⟩
  · exact pre_request_spec.1 (Download.init none true)
      { accept_encoding := none, range := none } rfl rfl
  · exact pre_request_spec.2.1
      (Download.init (some { name := "f", size := 42, closed := false }) true)
      { accept_encoding := none, range := none }
      { name := "f", size := 42, closed := false } rfl rfl (by decide)
  · exact pre_request_spec.2.2
      (Download.init (some { name := "g", size := 0, closed := false }) true)
      { accept_encoding := none, range := none }
      { name := "g", size := 0, closed := false } rfl rfl rfl

/-- While `time_finished` is unset, driving the per-chunk callback over a
whole list of chunk sizes succeeds and adds exactly their sum. -/
theorem applyChunks_ok (s : List Nat) : ∀ (p : Progress),
    p.time_finished = none →
    applyChunks p s = .ok { p with downloaded := p.downloaded + s.sum } := by
  induction s with
  | nil =>
    intro p _
    simp [applyChunks]
  | cons a t ih =>
    intro p h
    have hc : p.chunk_downloaded a = .ok { p with downloaded := p.downloaded + a } := by
      unfold Progress.chunk_downloaded
      rw [h]
    rw [applyChunks, hc]
    have := ih { p with downloaded := p.downloaded + a } (by simpa using h)
    show applyChunks { p with downloaded := p.downloaded + a } t
      = .ok { p with downloaded := p.downloaded + (a :: t).sum }
    rw [this]
    simp [Nat.add_assoc]

/-- `Progress.started` on a fresh `Progress` always succeeds, and yields a
state whose counter and resume offset are `resumed_from` with no finish
timestamp. -/
theorem init_started_ok (r : Nat) (t : Option Int) (now : ℚ) :
    ∃ p1, Progress.init.started r t now = .ok p1 ∧
      p1.downloaded = r ∧ p1.resumed_from = r ∧ p1.time_finished = none := by
  cases t with
  | none => exact ⟨_, rfl, rfl, rfl, rfl⟩
  | some v => exact ⟨_, rfl, rfl, rfl, rfl⟩

/-- C3: after `started(resumed_from = r, total_size = t)` and the chunk
callback for sizes `s_1 .. s_n`, `downloaded = r + sum s_i`; every prefix
of the call sequence also satisfies the formula, and the counter after
each call is no smaller than after the previous one — for every `r`,
every optional total size, and every start time. -/
theorem progress_downloaded_sum (r : Nat) (t : Option Int) (now : ℚ)
    (s : List Nat) :
    ∃ p1, Progress.init.started r t now = .ok p1 ∧
      (∀ i : Nat, ∃ q, applyChunks p1 (s.take i) = .ok q ∧
        q.downloaded = r + (s.take i).sum) ∧
      (∃ q, applyChunks p1 s = .ok q ∧ q.downloaded = r + s.sum) ∧
      (∀ i : Nat, r + (s.take i).sum ≤ r + (s.take (i + 1)).sum) := by
  obtain ⟨p1, hs, hd, _, hf⟩ := init_started_ok r t now
  refine ⟨p1, hs, ?_, ?_, ?_⟩
  · intro i
    exact ⟨_, applyChunks_ok (s.take i) p1 hf, by simp [hd]⟩
  · exact ⟨_, applyChunks_ok s p1 hf, by simp [hd]⟩
  · intro i
    have h1 : s.take (i + 1) = s.take i ++ s[i]?.toList := List.take_succ
    rw [h1, List.sum_append]
    omega

/-- C4: every contract-violating call sequence hits an `assert` and
aborts: a second `started`, `finished` without `started`, a second
`finished`, `chunk_downloaded` after `time_finished` is set, and
`Download.start` when `time_started` is already set (a nonzero timestamp,
as `time.time()` returns). -/
theorem contract_violations_abort :
    (∀ (p : Progress) (r : Nat) (t : Option Int) (now ts : ℚ),
      p.time_started = some ts →
      p.started r t now = .error .assertionError) ∧
    (∀ (p : Progress) (now : ℚ), p.time_started = none →
      p.finished now = .error .assertionError) ∧
    (∀ (p : Progress) (now ts tf : ℚ), p.time_started = some ts →
      p.time_finished = some tf →
      p.finished now = .error .assertionError) ∧
    (∀ (p : Progress) (n : Nat) (tf : ℚ), p.time_finished = some tf →
      p.chunk_downloaded n = .error .assertionError) ∧
    (∀ (d : Download) (resp : Response) (now ts : ℚ)
      (fsExists : String → Bool) (guessExt : String → Option String)
      (fuel : Nat),
      d.progress.time_started = some ts → ts ≠ 0 →
      Download.start d resp now fsExists guessExt fuel
        = some (.error .assertionError)) := by
  refine ⟨?_, ?_, ?_, ?_, ?_⟩
  · intro p r t now ts h
    simp [Progress.started, h]
  · intro p now h
    simp [Progress.finished, h]
  · intro p now ts tf h1 h2
    simp [Progress.finished, h1, h2]
  · intro p n tf h
    simp [Progress.chunk_downloaded, h]
  · intro d resp now ts fsExists guessExt fuel h hne
    have ht : pyTruthyOptTime d.progress.time_started = true := by
      simp [pyTruthyOptTime, h, hne]
    simp [Download.start, ht]

/-- A `Progress` that has been started (at time 1). -/
def progressStarted : Progress :=
  { Progress.init with time_started := some 1 }

/-- A `Progress` that has been started and finished. -/
def progressFinished : Progress :=
  { Progress.init with time_started := some 1, time_finished := some 2 }

/-- A `Download` whose progress has already been started. -/
def downloadStarted : Download :=
  { Download.init none false with progress := progressStarted }

/-- A response carrying none of the headers the source reads. -/
def plainResponse : Response :=
  { status_code := 200, content_length := none, content_range := none,
    content_disposition := none, content_type := none, url := "http://x/" }

/-- C4 (witness): each clause at a concrete violating state. -/
theorem contract_violations_abort_witness :
    Progress.started progressStarted 0 none 2 = .error .assertionError ∧
    Progress.finished Progress.init 2 = .error .assertionError ∧
    Progress.finished progressFinished 3 = .error .assertionError ∧
    Progress.chunk_downloaded progressFinished 10 = .error .assertionError ∧
    Download.start downloadStarted plainResponse 2 (fun _ => false)
      (fun _ => none) 1 = some (.error .assertionError) :=
  ⟨contract_violations_abort.1 progressStarted 0 none 2 1 rfl,
   contract_violations_abort.2.1 Progress.init 2 rfl,
   contract_violations_abort.2.2.1 progressFinished 3 1 2 rfl rfl,
   contract_violations_abort.2.2.2.1 progressFinished 10 2 rfl,
   contract_violations_abort.2.2.2.2 downloadStarted plainResponse 2 1
     (fun _ => false) (fun _ => none) 1 rfl (by norm_num)⟩

/-- C5: on every finished `Progress` with a nonzero elapsed time, the
summary's values are exactly `downloaded - resumed_from` bytes,
`time_finished - time_started` elapsed, and their quotient as the average
speed — whatever `total_size` is (it is passed through untouched and does
not enter the three values). -/
theorem sum_up_values (p : Progress) (ts tf : ℚ)
    (h1 : p.time_started = some ts) (h2 : p.time_finished = some tf)
    (h3 : tf - ts ≠ 0) :
    sum_up p = .ok
      { downloaded := (p.downloaded : ℚ) - (p.resumed_from : ℚ),
        total := p.total_size, time := tf - ts,
        speed := ((p.downloaded : ℚ) - (p.resumed_from : ℚ)) / (tf - ts) } := by
  unfold sum_up
  rw [h1, h2]
  simp [h3]

/-- The spec's worked example: resumed at 100, 1100 bytes total on the
counter, started at time 5, finished at time 15. -/
def progressSummaryExample : Progress :=
  { Progress.init with
      downloaded := 1100
      resumed_from := 100
      time_started := some 5
      time_finished := some 15 }

/-- C5 (witness): the worked example reports 1000 bytes in 10 seconds at
100 bytes per second. -/
theorem sum_up_values_witness :
    sum_up progressSummaryExample
      = .ok { downloaded := 1000, total := none, time := 10, speed := 100 } := by
  have h := sum_up_values progressSummaryExample 5 15 rfl rfl (by norm_num)
  rw [h]
  norm_num [progressSummaryExample, Progress.init]

/-- A progress with bytes on the counter but no known total size. -/
def progressNoTotal : Progress :=
  { Progress.init with downloaded := 8192, time_started := some 1 }

/-- C6: with `total_size` unknown, a recompute wake does not render the
no-content-length line — evaluating `self.progress.total_size - downloaded`
with `total_size = None` raises a `TypeError` that the
`except ZeroDivisionError` clause does not catch, so `report_speed`
raises instead of writing (here: 8192 bytes downloaded, 2 seconds since
the previous sample, so the speed is nonzero and the computation reaches
the eta expression). -/
theorem report_speed_unknown_total_typeerror :
    report_speed progressNoTotal (ReporterState.init 0) 2 = .error .typeErr := by
  have hc : computeSpeedEta progressNoTotal.total_size
      progressNoTotal.downloaded (ReporterState.init 0).prev_bytes 2
      (ReporterState.init 0).prev_time = .error .typeErr := by
    unfold computeSpeedEta
    norm_num [progressNoTotal, ReporterState.init, Progress.init]
  unfold report_speed sampleStep
  rw [if_pos (by norm_num [ReporterState.init] : (2 : ℚ) -
    (ReporterState.init 0).prev_time ≥ (ReporterState.init 0).update_interval)]
  rw [hc]

/-- C7: whenever a wake recomputes and a division by zero arises — no
elapsed time since the previous sample, or a known `total_size` with a
computed speed of zero — `report_speed` does not raise: the
`ZeroDivisionError` is caught, the new status line carries speed `0` and
the eta placeholder `"?"`, and the line is still written. -/
theorem report_speed_divzero_degrades (p : Progress) (st : ReporterState)
    (now : ℚ) (hbranch : now - st.prev_time ≥ st.update_interval)
    (hzde : now - st.prev_time = 0 ∨
      (p.total_size.isSome = true ∧
        ((p.downloaded : ℚ) - (st.prev_bytes : ℚ)) / (now - st.prev_time) = 0)) :
    ∃ (st2 : ReporterState) (line : StatusLine),
      report_speed p st now
        = .ok (st2, { spinner := spinnerGlyph st.spinner_pos, line := some line }) ∧
      st2.status_line = some line ∧ line.speed = 0 ∧ line.eta = "?" := by
  have hc : computeSpeedEta p.total_size p.downloaded st.prev_bytes now
      st.prev_time = .ok (0, "?") := by
    rcases hzde with h0 | ⟨hsome, hspeed⟩
    · unfold computeSpeedEta
      rw [if_pos h0]
    · by_cases h0 : now - st.prev_time = 0
      · unfold computeSpeedEta
        rw [if_pos h0]
      · obtain ⟨t, ht⟩ := Option.isSome_iff_exists.mp hsome
        unfold computeSpeedEta
        rw [if_neg h0]
        simp only [ht]
        rw [if_pos hspeed]
  have hsample : sampleStep p st now
      = .ok { st with
                status_line := some (statusLineOf p 0 "?")
                prev_time := now
                prev_bytes := p.downloaded } := by
    unfold sampleStep
    rw [if_pos hbranch, hc]
  have hrep : report_speed p st now
      = .ok ({ st with
                status_line := some (statusLineOf p 0 "?")
                prev_time := now
                prev_bytes := p.downloaded
                spinner_pos :=
                  if st.spinner_pos + 1 ≠ 4 then st.spinner_pos + 1 else 0 },
             { spinner := spinnerGlyph st.spinner_pos,
               line := some (statusLineOf p 0 "?") }) := by
    unfold report_speed
    rw [hsample]
  exact ⟨_, statusLineOf p 0 "?", hrep, rfl, rfl, rfl⟩

/-- A reporter whose update interval is zero (the constructor lets a
caller pass `update_interval=0`), so a wake at the construction instant
recomputes with no elapsed time. -/
def reporterZeroInterval : ReporterState :=
  { ReporterState.init 5 with update_interval := 0 }

/-- C7 (witness): a wake at time 5 on a reporter whose previous sample is
also at time 5 — the speed division is a division by zero; the line is
written with speed 0 and eta placeholder. -/
theorem report_speed_divzero_degrades_witness :
    ∃ (st2 : ReporterState) (line : StatusLine),
      report_speed Progress.init reporterZeroInterval 5
        = .ok (st2, { spinner := spinnerGlyph reporterZeroInterval.spinner_pos,
                      line := some line }) ∧
      st2.status_line = some line ∧ line.speed = 0 ∧ line.eta = "?" :=
  report_speed_divzero_degrades Progress.init reporterZeroInterval 5
    (by norm_num [reporterZeroInterval, ReporterState.init])
    (Or.inl (by norm_num [reporterZeroInterval, ReporterState.init]))

end Httpie
